import Mathlib

/-!
# Verification of the imageboost-seo compression-and-cache-consistency engine

Shallow embedding of the core of the repository:

* `canonical`                — `src/app/utils/firebaseStorage.server.js`, line 4
* `findStoredImage`          — same file, the cache lookup with stale-record GC
* `findOriginalImage`        — same file, the original-archive lookup
* `storeCompressedImage`     — same file, blob + metadata write
* `sharpCompressOne`         — `src/app/utils/sharpCompression.server.js`
* `tinifyCompressImage`      — `src/unnamed/part_004`, `compressImage`
* `processItem` / `runBatch` / `compressAction`
                             — `src/app/routes/api.compress-images.jsx` (the
                               revision with the Shopify origin swap)
* `aggregates`               — the batch aggregate block shared by the route
                               revisions and `src/unnamed/part_000`
* `revertAction`             — the `/api/revert-image` action in
                               `src/firebase-test.js`

External collaborators (HTTP fetch, the sharp/tinify codecs, Firestore
reachability, the `exists()` check on a bucket object, the URL parser used to
derive a storage path, and the Shopify Admin API) are modelled as oracles:
function-valued parameters that may return errors, so that every theorem
quantifies over their behaviour.  Buffers are `List Nat` (byte lists), strings
are `List Char`, and JavaScript `undefined` fields are `Option`s.
-/

/-- URLs, cache keys and format names are JavaScript strings, embedded as
character lists. -/
abbrev Url := List Char

/-- `canonical` — `firebaseStorage.server.js` line 4:
`url => (url ? url.split('?')[0] : url)`.
`split('?')[0]` is the prefix of the string before the first `'?'`; for the
empty string the falsy branch returns the string unchanged, which coincides
with taking the empty prefix. -/
def canonical (url : Url) : Url := url.takeWhile (fun c => c != '?')

/-- C8: for every string `u` and every query suffix, appending `'?'` followed
by anything does not change the canonical key: the canonicalizer strips the
query component.  It is a pure total Lean function, hence deterministic and
without error conditions. -/
theorem canonical_strips_query (u q : Url) :
    canonical (u ++ '?' :: q) = canonical u := by
  induction u with
  | nil => simp [canonical, List.takeWhile]
  | cons c u ih =>
    by_cases hc : c = '?'
    · subst hc
      simp [canonical, List.takeWhile]
    · have hb : (c != '?') = true := by simp [hc]
      simp only [canonical, List.cons_append, List.takeWhile, hb] at ih ⊢
      simpa using ih

/-! ## Cache store: Firestore documents and the storage bucket -/

/-- A document of the `compressedImages` Firestore collection, as written by
`storeCompressedImage` (fields `originalUrl`, `compressedUrl`, `size`,
`format`, plus spread caller metadata `originalSize`, and the optional Shopify
fields some revisions write).  `storagePath` is
`_storageMetadata.storagePath`; it is `none` when the path was never recorded.
`id` is the Firestore document id. -/
structure ImageDoc where
  id : Nat
  originalUrl : Url
  compressedUrl : Url
  size : Nat
  format : Url
  originalSize : Option Nat
  shopifyImageId : Option Nat
  shopifyCompressedUrl : Option Url
  storagePath : Option Url
deriving Repr, DecidableEq

/-- A document of the `originalImages` collection, as written by
`storeOriginalImage`. -/
structure OrigDoc where
  id : Nat
  originalUrl : Url
  storedUrl : Url
  size : Nat
  format : Url
deriving Repr, DecidableEq

/-- The persistence state: the two Firestore collections in query order (a
`limit(1)` query returns the first matching document) and the set of object
paths currently present in the storage bucket.  `nextId` feeds fresh document
ids and fresh blob names (the `uuidv4()` calls). -/
structure Store where
  docs : List ImageDoc
  originals : List OrigDoc
  bucket : List Url
  nextId : Nat
deriving Repr, DecidableEq

/-- Environment oracle for the persistence collaborators:
* `queryOk`        — `false` models a Firestore query throwing (the outer
                      `catch` of `findStoredImage` / `findOriginalImage`);
* `existsThrows p` — `true` models `bucket.file(p).exists()` throwing for
                      path `p` (the inner `catch (checkErr)`);
* `derivePath u`   — models `new URL(u)` + `pathname.split('/o/')` +
                      `decodeURIComponent`: `some p` is a successfully derived
                      non-empty path, `none` covers both a URL-parse throw and
                      an empty derivation (`if (derived)` falsy). -/
structure Oracle where
  queryOk : Bool
  existsThrows : Url → Bool
  derivePath : Url → Option Url

/-- The value `findStoredImage` returns to its caller.  The branches that
return `{ id, ...doc.data() }` carry no `url` property (JavaScript
`undefined`), modelled as `url = none`; the existence-checked branches return
`{ id, url: data.compressedUrl, ...data }`, modelled as `url = some _`. -/
structure Found where
  id : Nat
  url : Option Url
  compressedUrl : Url
  size : Nat
  format : Url
  originalSize : Option Nat
deriving Repr, DecidableEq

/-- `{ id: doc.id, ...doc.data() }` — the early-return shape (no `url`). -/
def mkFoundNoUrl (d : ImageDoc) : Found :=
  { id := d.id, url := none, compressedUrl := d.compressedUrl, size := d.size,
    format := d.format, originalSize := d.originalSize }

/-- `{ id: doc.id, url: data.compressedUrl, ...data }` — the checked-branch
shape. -/
def mkFoundWithUrl (d : ImageDoc) : Found :=
  { id := d.id, url := some d.compressedUrl, compressedUrl := d.compressedUrl,
    size := d.size, format := d.format, originalSize := d.originalSize }

/-- `doc.ref.delete()`: remove the document with this id (Firestore ids are
unique; `eraseP` removes the first, hence the only, occurrence). -/
def deleteDoc (docs : List ImageDoc) (i : Nat) : List ImageDoc :=
  docs.eraseP (fun d => d.id == i)

/-- The back-fill `doc.ref.set({_storageMetadata: {..., storagePath}}, {merge:
true})`: record the derived path on that document. -/
def setStoragePath (docs : List ImageDoc) (i : Nat) (p : Url) : List ImageDoc :=
  docs.map (fun d => if d.id == i then { d with storagePath := some p } else d)

/-- The existence-verification tail of `findStoredImage`
(`firebaseStorage.server.js` lines 181–233), applied to the document selected
by the `originalUrl` or `compressedUrl` query: resolve the storage path
(back-filling a derived one), treat an unresolvable path as stale (delete the
document, miss), then check the blob exists — a throwing or negative check
also deletes the document and returns a miss. -/
def checkDoc (ora : Oracle) (st : Store) (d : ImageDoc) :
    Option Found × List ImageDoc :=
  let resolved : Option Url × List ImageDoc :=
    match d.storagePath with
    | some p => (some p, st.docs)
    | none =>
      if d.compressedUrl != [] then
        match ora.derivePath d.compressedUrl with
        | some dp => (some dp, setStoragePath st.docs d.id dp)
        | none => (none, st.docs)
      else (none, st.docs)
  match resolved with
  | (none, docs1) => (none, deleteDoc docs1 d.id)
  | (some p, docs1) =>
    if ora.existsThrows p then (none, deleteDoc docs1 d.id)
    else if st.bucket.contains p then (some (mkFoundWithUrl d), docs1)
    else (none, deleteDoc docs1 d.id)

/-- The `originalUrl` / `shopifyCompressedUrl` / `compressedUrl` query
cascade of `findStoredImage` (everything after the optional `imageId`
branch). -/
def findStoredImageByUrl (ora : Oracle) (st : Store) (k : Url) :
    Option Found × List ImageDoc :=
  match st.docs.find? (fun d => d.originalUrl == k) with
  | some d => checkDoc ora st d
  | none =>
    match st.docs.find? (fun d => d.shopifyCompressedUrl == some k) with
    | some d => (some (mkFoundNoUrl d), st.docs)
    | none =>
      match st.docs.find? (fun d => d.compressedUrl == k) with
      | some d => checkDoc ora st d
      | none => (none, st.docs)

/-- `findStoredImage(originalUrl, imageId = null)` —
`firebaseStorage.server.js` lines 139–240.  Returns the value handed to the
caller together with the `compressedImages` collection after any stale-record
deletion or path back-fill.  A Firestore failure (`queryOk = false`) is the
outer `catch`: it returns `null` and leaves the collection unchanged. -/
def findStoredImage (ora : Oracle) (st : Store) (originalUrl : Url)
    (imageId : Option Nat) : Option Found × List ImageDoc :=
  let canonicalUrl := canonical originalUrl
  if ora.queryOk then
    match imageId with
    | some i =>
      match st.docs.find? (fun d => d.shopifyImageId == some i) with
      | some d => (some (mkFoundNoUrl d), st.docs)
      | none => findStoredImageByUrl ora st canonicalUrl
    | none => findStoredImageByUrl ora st canonicalUrl
  else (none, st.docs)

/-- `findOriginalImage(originalUrl)` — `firebaseStorage.server.js` lines
319–335: a single equality query on `originalImages`, any error caught and
converted to `null`. -/
def findOriginalImage (ora : Oracle) (st : Store) (url : Url) :
    Option OrigDoc :=
  if ora.queryOk then
    st.originals.find? (fun d => d.originalUrl == canonical url)
  else none

/-- Modelled from the spec: the §4.4 lookup-precedence description, stated
independently of the code — (1) exact match on the external platform
identifier when supplied, else (2) exact match on the canonical key, else
(3) match on the recorded swapped-to URL, else (4) match on the stored
artifact's own URL, else a miss.  Used only to compare against
`findStoredImage`. -/
def lookupPrecedence (st : Store) (url : Url) (imageId : Option Nat) :
    Option ImageDoc :=
  let k := canonical url
  let byId : Option ImageDoc :=
    match imageId with
    | some i => st.docs.find? (fun d => d.shopifyImageId == some i)
    | none => none
  byId.orElse fun _ =>
    (st.docs.find? (fun d => d.originalUrl == k)).orElse fun _ =>
      (st.docs.find? (fun d => d.shopifyCompressedUrl == some k)).orElse
        fun _ => st.docs.find? (fun d => d.compressedUrl == k)

/-- A store is healthy when every metadata record carries a recorded storage
path whose blob is present and whose existence check does not throw. -/
def HealthyStore (ora : Oracle) (st : Store) : Prop :=
  ∀ d ∈ st.docs, ∃ p, d.storagePath = some p ∧
    ora.existsThrows p = false ∧ st.bucket.contains p = true

theorem checkDoc_healthy (ora : Oracle) (st : Store) (d : ImageDoc)
    (h : ∃ p, d.storagePath = some p ∧ ora.existsThrows p = false ∧
      st.bucket.contains p = true) :
    checkDoc ora st d = (some (mkFoundWithUrl d), st.docs) := by
  obtain ⟨p, hp, hthrow, hmem⟩ := h
  have hmem2 : p ∈ st.bucket := by simpa using hmem
  simp [checkDoc, hp, hthrow, hmem2]

/-- C5: on a healthy store the lookup follows exactly the spec's four-level
precedence — the record returned by `findStoredImage` is the record selected
by `lookupPrecedence` (compared by document id, and a miss exactly when the
precedence yields none), and the collection is left unchanged. -/
theorem findStoredImage_precedence (ora : Oracle) (st : Store) (url : Url)
    (imageId : Option Nat) (hq : ora.queryOk = true)
    (hh : HealthyStore ora st) :
    (findStoredImage ora st url imageId).1.map Found.id =
      (lookupPrecedence st url imageId).map ImageDoc.id ∧
    (findStoredImage ora st url imageId).2 = st.docs := by
  have hby : ∀ k, (findStoredImageByUrl ora st k).1.map Found.id =
      (((st.docs.find? (fun d => d.originalUrl == k)).orElse fun _ =>
        (st.docs.find? (fun d => d.shopifyCompressedUrl == some k)).orElse
          fun _ => st.docs.find? (fun d => d.compressedUrl == k)).map
            ImageDoc.id) ∧
      (findStoredImageByUrl ora st k).2 = st.docs := by
    intro k
    unfold findStoredImageByUrl
    cases h1 : st.docs.find? (fun d => d.originalUrl == k) with
    | some d =>
      have := checkDoc_healthy ora st d (hh d (List.mem_of_find?_eq_some h1))
      simp [this, Option.orElse, mkFoundWithUrl]
    | none =>
      cases h2 : st.docs.find? (fun d => d.shopifyCompressedUrl == some k) with
      | some d => simp [Option.orElse, mkFoundNoUrl]
      | none =>
        cases h3 : st.docs.find? (fun d => d.compressedUrl == k) with
        | some d =>
          have := checkDoc_healthy ora st d (hh d (List.mem_of_find?_eq_some h3))
          simp [this, Option.orElse, mkFoundWithUrl]
        | none => simp [Option.orElse]
  unfold findStoredImage lookupPrecedence
  cases imageId with
  | none => simpa [hq, Option.orElse] using hby (canonical url)
  | some i =>
    cases hid : st.docs.find? (fun d => d.shopifyImageId == some i) with
    | some d => simp [hq, hid, Option.orElse, mkFoundNoUrl]
    | none => simpa [hq, hid, Option.orElse] using hby (canonical url)

/-- A benign oracle: Firestore reachable, no existence check ever throws, no
path ever derivable from a URL (never needed by the healthy fixtures). -/
def benignOracle : Oracle :=
  { queryOk := true, existsThrows := fun _ => false,
    derivePath := fun _ => none }

/-- Fixture: a record keyed by canonical URL `"a"`. -/
def sampleDocA : ImageDoc :=
  { id := 1, originalUrl := ['a'], compressedUrl := ['c'], size := 5,
    format := ['w'], originalSize := some 9, shopifyImageId := none,
    shopifyCompressedUrl := none, storagePath := some ['p'] }

/-- Fixture: a record whose artifact URL is `"a"` (would match only through
the fourth precedence level). -/
def sampleDocB : ImageDoc :=
  { id := 2, originalUrl := ['b'], compressedUrl := ['a'], size := 4,
    format := ['w'], originalSize := none, shopifyImageId := none,
    shopifyCompressedUrl := none, storagePath := some ['r'] }

/-- Fixture: a healthy two-record store containing both sample records. -/
def sampleStore : Store :=
  { docs := [sampleDocA, sampleDocB], originals := [],
    bucket := [['p'], ['r']], nextId := 0 }

/-- C5 witness: on the concrete healthy two-record store the canonical-key
match wins over the artifact-URL match, exactly as the precedence function
dictates. -/
theorem findStoredImage_precedence_witness :
    (findStoredImage benignOracle sampleStore ['a'] none).1.map Found.id =
      (lookupPrecedence sampleStore ['a'] none).map ImageDoc.id ∧
    (findStoredImage benignOracle sampleStore ['a'] none).2 =
      sampleStore.docs := by
  refine findStoredImage_precedence _ _ _ _ rfl ?_
  intro d hd
  simp only [sampleStore, List.mem_cons, List.not_mem_nil, or_false] at hd
  rcases hd with h | h <;> subst h <;> exact ⟨_, rfl, rfl, by decide⟩

/-- Fixture: a record carrying a Shopify image id whose referenced blob is
missing (the store's bucket is empty). -/
def staleByIdDoc : ImageDoc :=
  { id := 7, originalUrl := ['a'], compressedUrl := ['c'], size := 5,
    format := ['w'], originalSize := some 9, shopifyImageId := some 7,
    shopifyCompressedUrl := none, storagePath := some ['p'] }

/-- Fixture: a store holding only `staleByIdDoc`, with an empty bucket, so
the record's blob does not exist. -/
def staleByIdStore : Store :=
  { docs := [staleByIdDoc], originals := [], bucket := [], nextId := 0 }

/-- C4 counterexample: a lookup that finds its record through the external
image identifier skips the existence check entirely — here the referenced
blob is missing from the bucket (the bucket is empty), yet the stale record
is returned to the caller and the record count does not decrease. -/
theorem findStoredImage_stale_byId_counterexample :
    staleByIdStore.bucket.contains ['p'] = false ∧
    (findStoredImage benignOracle staleByIdStore ['a'] (some 7)).1 =
      some (mkFoundNoUrl staleByIdDoc) ∧
    (findStoredImage benignOracle staleByIdStore ['a'] (some 7)).2.length =
      staleByIdStore.docs.length := by
  refine ⟨rfl, ?_, rfl⟩
  decide

/-- C4 (amended): the check-and-heal applies to the two existence-checked
branches — a record matched by canonical key (or, with the earlier queries
empty, by its artifact URL) whose storage path cannot be resolved or whose
blob is missing or whose existence check throws is deleted, the lookup
returns a miss, and the record count decreases by exactly one. -/
theorem findStoredImage_stale_checked_heals (ora : Oracle) (st : Store)
    (url : Url) (d : ImageDoc) (hq : ora.queryOk = true)
    (hsel : st.docs.find? (fun x => x.originalUrl == canonical url) = some d ∨
      (st.docs.find? (fun x => x.originalUrl == canonical url) = none ∧
       st.docs.find?
         (fun x => x.shopifyCompressedUrl == some (canonical url)) = none ∧
       st.docs.find? (fun x => x.compressedUrl == canonical url) = some d))
    (hstale : match d.storagePath with
      | some p => ora.existsThrows p = true ∨ st.bucket.contains p = false
      | none => d.compressedUrl = [] ∨ ora.derivePath d.compressedUrl = none ∨
          ∃ dp, ora.derivePath d.compressedUrl = some dp ∧
            (ora.existsThrows dp = true ∨ st.bucket.contains dp = false)) :
    (findStoredImage ora st url none).1 = none ∧
    (findStoredImage ora st url none).2.length + 1 = st.docs.length := by
  have hmem : d ∈ st.docs := by
    rcases hsel with h | ⟨_, _, h⟩ <;> exact List.mem_of_find?_eq_some h
  have hpos : 0 < st.docs.length :=
    List.length_pos.mpr (List.ne_nil_of_mem hmem)
  have hdel : (deleteDoc st.docs d.id).length + 1 = st.docs.length := by
    have := List.length_eraseP_of_mem hmem (p := fun x => x.id == d.id)
      (by simp)
    simp only [deleteDoc, this]
    omega
  have hdel2 : ∀ dp, (deleteDoc (setStoragePath st.docs d.id dp) d.id).length
      + 1 = st.docs.length := by
    intro dp
    have hmem2 : ({ d with storagePath := some dp } : ImageDoc) ∈
        setStoragePath st.docs d.id dp := by
      unfold setStoragePath
      exact List.mem_map.mpr ⟨d, hmem, by simp⟩
    have := List.length_eraseP_of_mem hmem2 (p := fun x => x.id == d.id)
      (by simp)
    have hlen : (setStoragePath st.docs d.id dp).length = st.docs.length := by
      simp [setStoragePath]
    simp only [deleteDoc, this, hlen]
    omega
  have hcheck : (checkDoc ora st d).1 = none ∧
      (checkDoc ora st d).2.length + 1 = st.docs.length := by
    unfold checkDoc
    cases hsp : d.storagePath with
    | some p =>
      simp only [hsp] at hstale
      rcases hstale with h | h
      · simp [h, hdel]
      · by_cases ht : ora.existsThrows p = true
        · simp [ht, hdel]
        · simp only [Bool.not_eq_true] at ht
          have h2 : p ∉ st.bucket := by simpa using h
          simp [ht, h2, hdel]
    | none =>
      simp only [hsp] at hstale
      rcases hstale with h | h | ⟨dp, hdp, h⟩
      · simp [h, hdel]
      · by_cases hcu : d.compressedUrl = []
        · simp [hcu, hdel]
        · have : (d.compressedUrl != []) = true := by simpa using hcu
          simp [this, h, hdel]
      · by_cases hcu : d.compressedUrl = []
        · simp [hcu, hdel]
        · have hcu2 : (d.compressedUrl != []) = true := by simpa using hcu
          by_cases ht : ora.existsThrows dp = true
          · simp [hcu2, hdp, ht, hdel2]
          · simp only [Bool.not_eq_true] at ht
            rcases h with h1 | h1
            · exact absurd h1 (by simp [ht])
            · have h2 : dp ∉ st.bucket := by simpa using h1
              simp [hcu2, hdp, ht, h2, hdel2]
  unfold findStoredImage findStoredImageByUrl
  rcases hsel with h | ⟨h1, h2, h3⟩
  · simpa [hq, h] using hcheck
  · simpa [hq, h1, h2, h3] using hcheck

/-- Fixture: a record keyed by canonical URL `"a"` whose recorded blob path
is absent from the bucket. -/
def staleByUrlDoc : ImageDoc :=
  { id := 3, originalUrl := ['a'], compressedUrl := ['c'], size := 5,
    format := ['w'], originalSize := some 9, shopifyImageId := none,
    shopifyCompressedUrl := none, storagePath := some ['p'] }

/-- Fixture: a store holding only `staleByUrlDoc` with an empty bucket. -/
def staleByUrlStore : Store :=
  { docs := [staleByUrlDoc], originals := [], bucket := [], nextId := 0 }

/-- C4 witness: looking up the stale canonical-key record deletes it, returns
a miss, and shrinks the collection from one record to zero. -/
theorem findStoredImage_stale_checked_heals_witness :
    (findStoredImage benignOracle staleByUrlStore ['a'] none).1 = none ∧
    (findStoredImage benignOracle staleByUrlStore ['a'] none).2.length + 1 =
      staleByUrlStore.docs.length :=
  findStoredImage_stale_checked_heals benignOracle staleByUrlStore ['a']
    staleByUrlDoc rfl (Or.inl (by decide)) (Or.inr rfl)

/-- C9: lookups convert internal failures into a miss instead of throwing —
(1) a Firestore query failure makes `findStoredImage` return `null` with the
collection untouched and `findOriginalImage` return `null`; (2) an
existence-check throw on the record selected by canonical key yields a miss;
(3) an unrecorded storage path whose derivation from the stored URL fails
yields a miss.  At the orchestrator each of these is indistinguishable from a
genuine cache miss. -/
theorem lookups_never_throw :
    (∀ (ora : Oracle) (st : Store) (url : Url) (imageId : Option Nat),
      ora.queryOk = false →
        findStoredImage ora st url imageId = (none, st.docs) ∧
        findOriginalImage ora st url = none) ∧
    (∀ (ora : Oracle) (st : Store) (url : Url) (d : ImageDoc) (p : Url),
      ora.queryOk = true →
      st.docs.find? (fun x => x.originalUrl == canonical url) = some d →
      d.storagePath = some p → ora.existsThrows p = true →
        (findStoredImage ora st url none).1 = none) ∧
    (∀ (ora : Oracle) (st : Store) (url : Url) (d : ImageDoc),
      ora.queryOk = true →
      st.docs.find? (fun x => x.originalUrl == canonical url) = some d →
      d.storagePath = none → ora.derivePath d.compressedUrl = none →
        (findStoredImage ora st url none).1 = none) := by
  refine ⟨?_, ?_, ?_⟩
  · intro ora st url imageId hq
    constructor
    · simp [findStoredImage, hq]
    · simp [findOriginalImage, hq]
  · intro ora st url d p hq hfind hp ht
    simp [findStoredImage, findStoredImageByUrl, hq, hfind, checkDoc, hp, ht]
  · intro ora st url d hq hfind hp hder
    by_cases hcu : d.compressedUrl = []
    · simp [findStoredImage, findStoredImageByUrl, hq, hfind, checkDoc, hp,
        hcu]
    · have hcu2 : (d.compressedUrl != []) = true := by simpa using hcu
      simp [findStoredImage, findStoredImageByUrl, hq, hfind, checkDoc, hp,
        hcu2, hder]

/-- Fixture: an oracle whose Firestore queries fail and whose existence
checks throw on every path. -/
def outageOracle : Oracle :=
  { queryOk := false, existsThrows := fun _ => true,
    derivePath := fun _ => none }

/-- Fixture: an oracle with reachable Firestore whose existence checks throw
on every path and whose URL parsing never yields a storage path. -/
def flakyOracle : Oracle :=
  { queryOk := true, existsThrows := fun _ => true,
    derivePath := fun _ => none }

/-- Fixture: a record keyed by canonical URL `"a"` with no recorded storage
path. -/
def pathlessDoc : ImageDoc :=
  { id := 4, originalUrl := ['a'], compressedUrl := ['c'], size := 5,
    format := ['w'], originalSize := some 9, shopifyImageId := none,
    shopifyCompressedUrl := none, storagePath := none }

/-- Fixture: a store holding only `pathlessDoc`. -/
def pathlessStore : Store :=
  { docs := [pathlessDoc], originals := [], bucket := [], nextId := 0 }

/-- C9 witness: the three failure conversions at concrete inputs — a query
outage, an existence-check throw on a canonical-key hit, and a failed path
derivation all surface as a plain miss. -/
theorem lookups_never_throw_witness :
    (findStoredImage outageOracle sampleStore ['a'] none =
        (none, sampleStore.docs) ∧
      findOriginalImage outageOracle sampleStore ['a'] = none) ∧
    (findStoredImage flakyOracle staleByUrlStore ['a'] none).1 = none ∧
    (findStoredImage flakyOracle pathlessStore ['a'] none).1 = none :=
  ⟨lookups_never_throw.1 outageOracle sampleStore ['a'] none rfl,
   lookups_never_throw.2.1 flakyOracle staleByUrlStore ['a'] staleByUrlDoc
     ['p'] rfl (by decide) rfl rfl,
   lookups_never_throw.2.2 flakyOracle pathlessStore ['a'] pathlessDoc rfl
     (by decide) rfl rfl⟩

/-! ## Compression engines -/

/-- Characters of a string literal (buffers of text such as format names and
error messages). -/
def strChars (s : String) : List Char := s.data

/-- Dimensions reported by `sharp(...).metadata()`. -/
structure SharpMeta where
  width : Nat
  height : Nat
deriving Repr, DecidableEq

/-- External collaborators of the sharp engine
(`sharpCompression.server.js`):
* `fetchBytes`  — the HTTP fetch; an error is the thrown message (a non-2xx
                   response and a transport failure both throw there);
* `metadata`    — `sharp(buffer).metadata()`, which may throw on an
                   undecodable image;
* `webpEncode`  — the `.webp({quality, ...}).toBuffer()` codec, taking the
                   fetched bytes, whether the resize stage was applied, and
                   the quality; an error is the thrown message;
* `pngEncode`   — the `.png({quality, compressionLevel: 9, ...}).toBuffer()`
                   fallback codec, same arguments. -/
structure SharpOracle where
  fetchBytes : Url → Except (List Char) (List Nat)
  metadata : List Nat → Except (List Char) SharpMeta
  webpEncode : List Nat → Bool → Nat → Except (List Char) (List Nat)
  pngEncode : List Nat → Bool → Nat → Except (List Char) (List Nat)

/-- The per-image result of `compressMultipleImages` in
`sharpCompression.server.js`: the success shape carries
`{originalSize, compressedSize, savings, buffer, format, warning?}`, the
failure shape `{success: false, error}`. -/
inductive SharpOutcome where
  | ok (originalSize compressedSize : Nat) (savings : ℚ) (buffer : List Nat)
      (format : List Char) (warning : Option (List Char))
  | fail (error : List Char)
deriving Repr, DecidableEq

/-- The body of the per-URL loop of `compressMultipleImages` in
`sharpCompression.server.js` (lines 14–152): fetch, read metadata, resize
when a dimension exceeds the bound, encode to WebP, fall back to PNG when the
WebP encode throws, and report sizes and savings; any other throw becomes a
failure result.  The encoded bytes are returned as-is — the code performs no
comparison of `compressedSize` against `originalSize`. -/
def sharpCompressOne (o : SharpOracle) (url : Url)
    (quality maxWidth maxHeight : Nat) : SharpOutcome :=
  match o.fetchBytes url with
  | .error e => .fail (strChars "Failed to fetch image: " ++ e)
  | .ok buf =>
    let originalSize := buf.length
    match o.metadata buf with
    | .error e => .fail e
    | .ok m =>
      let resized := decide (m.width > maxWidth) || decide (m.height > maxHeight)
      match o.webpEncode buf resized quality with
      | .ok cbuf =>
        .ok originalSize cbuf.length
          (1 - (cbuf.length : ℚ) / (originalSize : ℚ)) cbuf
          (strChars "webp") none
      | .error we =>
        match o.pngEncode buf resized quality with
        | .ok pbuf =>
          .ok originalSize pbuf.length
            (1 - (pbuf.length : ℚ) / (originalSize : ℚ)) pbuf
            (strChars "png")
            (some (strChars "Used PNG fallback: " ++ we))
        | .error pe => .fail pe

/-- `contentType.includes(sub)` — substring test. -/
def includesSub (s sub : List Char) : Bool := decide (List.IsInfix sub s)

/-- External collaborators of the tinify engine (`src/unnamed/part_004`):
* `fetch`   — HTTP fetch returning the bytes and the `content-type` header
               (`''` when absent); an error is the thrown message;
* `convert` — `tinify.fromBuffer(...).convert({type: [mime]}).result()
               .toBuffer()` for the chosen format; an error is the thrown
               message (quota, credential and conversion failures);
* `urlExt`  — `new URL(imageUrl).pathname.split('.').pop().toLowerCase()`;
               an error models the `URL` constructor throwing. -/
structure TinifyOracle where
  fetch : Url → Except (List Char) (List Nat × List Char)
  convert : List Nat → List Char → Except (List Char) (List Nat)
  urlExt : Url → Except (List Char) (List Char)

/-- Format inference of `compressImage` in `part_004` (lines 16–36): match
the content type against jpeg/jpg, png, webp, gif in that order; otherwise
take the URL extension when it is one of the five known ones (normalizing
`jpeg` to `jpg`), and otherwise keep the initial default `webp`. -/
def tinifyDetectFormat (o : TinifyOracle) (url : Url) (ct : List Char) :
    Except (List Char) (List Char) :=
  if includesSub ct (strChars "jpeg") || includesSub ct (strChars "jpg") then
    .ok (strChars "jpg")
  else if includesSub ct (strChars "png") then .ok (strChars "png")
  else if includesSub ct (strChars "webp") then .ok (strChars "webp")
  else if includesSub ct (strChars "gif") then .ok (strChars "gif")
  else
    match o.urlExt url with
    | .error e => .error e
    | .ok ext =>
      if [strChars "jpg", strChars "jpeg", strChars "png", strChars "webp",
          strChars "gif"].contains ext then
        .ok (if ext == strChars "jpeg" then strChars "jpg" else ext)
      else .ok (strChars "webp")

/-- The per-image result of `compressImage` in `part_004`. -/
inductive TinifyOutcome where
  | ok (originalSize compressedSize : Nat) (savings : ℚ) (buffer : List Nat)
      (format : List Char)
  | fail (error : List Char)
deriving Repr, DecidableEq

/-- `compressImage(imageUrl)` — `src/unnamed/part_004` lines 6–81: fetch,
infer the target format, submit to the conversion service, and report
`savings = ((1 - compressedSize/originalSize) * 100) / 100` (the code
computes a percentage and divides it back down).  Every throw is caught and
returned as a failure result.  As in the sharp engine, the converted bytes
are returned without any size comparison against the original. -/
def tinifyCompressImage (o : TinifyOracle) (url : Url) : TinifyOutcome :=
  match o.fetch url with
  | .error e => .fail e
  | .ok (buf, ct) =>
    let originalSize := buf.length
    match tinifyDetectFormat o url ct with
    | .error e => .fail e
    | .ok format =>
      match o.convert buf format with
      | .error e => .fail e
      | .ok cbuf =>
        .ok originalSize cbuf.length
          ((1 - (cbuf.length : ℚ) / (originalSize : ℚ)) * 100 / 100)
          cbuf format

/-- Fixture: a sharp-engine collaborator whose WebP codec outputs three bytes
for a one-byte source — an encode larger than the original. -/
def inflatingSharpOracle : SharpOracle :=
  { fetchBytes := fun _ => .ok [0],
    metadata := fun _ => .ok { width := 1, height := 1 },
    webpEncode := fun _ _ _ => .ok [0, 1, 2],
    pngEncode := fun _ _ _ => .error (strChars "unused") }

/-- C1 counterexample: when the raw WebP encode produces more bytes than the
source, the sharp engine still reports success with the encoded buffer — the
reported `compressedSize` (3) exceeds `originalSize` (1), the returned buffer
is the encoded bytes rather than the original bytes, and the reported savings
is −2 rather than 0.  No no-worse-than-original fallback exists in the
code. -/
theorem no_worse_than_original_counterexample :
    sharpCompressOne inflatingSharpOracle ['u'] 40 1200 1200 =
      SharpOutcome.ok 1 3 (-2) [0, 1, 2] (strChars "webp") none ∧
    ¬ (3 ≤ 1) ∧ ([0, 1, 2] : List Nat) ≠ [0] ∧ ((-2 : ℚ) ≠ 0) := by
  refine ⟨?_, by omega, by simp, by norm_num⟩
  simp only [sharpCompressOne, inflatingSharpOracle]
  norm_num

/-- C1 (amended): for both engines every successful result reports
`compressedSize` as the byte length of the encoded output and
`savings = 1 - compressedSize/originalSize`, with no floor at zero and no
comparison against the original size; `compressedSize ≤ originalSize` is not
guaranteed. -/
theorem engine_size_accounting :
    (∀ (o : SharpOracle) (url : Url) (q mw mh os cs : Nat) (sv : ℚ)
        (buf : List Nat) (f : List Char) (w : Option (List Char)),
      sharpCompressOne o url q mw mh = .ok os cs sv buf f w →
        cs = buf.length ∧ sv = 1 - (cs : ℚ) / (os : ℚ)) ∧
    (∀ (o : TinifyOracle) (url : Url) (os cs : Nat) (sv : ℚ)
        (buf : List Nat) (f : List Char),
      tinifyCompressImage o url = .ok os cs sv buf f →
        cs = buf.length ∧ sv = 1 - (cs : ℚ) / (os : ℚ)) := by
  constructor
  · intro o url q mw mh os cs sv buf f w h
    cases hf : o.fetchBytes url with
    | error e => simp [sharpCompressOne, hf] at h
    | ok b =>
      cases hm : o.metadata b with
      | error e => simp [sharpCompressOne, hf, hm] at h
      | ok m =>
        cases hw : o.webpEncode b
            (decide (m.width > mw) || decide (m.height > mh)) q with
        | ok cbuf =>
          simp only [sharpCompressOne, hf, hm, hw, SharpOutcome.ok.injEq] at h
          obtain ⟨h1, h2, h3, h4, -, -⟩ := h
          subst h1 h2 h4
          exact ⟨rfl, h3.symm⟩
        | error we =>
          cases hp : o.pngEncode b
              (decide (m.width > mw) || decide (m.height > mh)) q with
          | ok pbuf =>
            simp only [sharpCompressOne, hf, hm, hw, hp,
              SharpOutcome.ok.injEq] at h
            obtain ⟨h1, h2, h3, h4, -, -⟩ := h
            subst h1 h2 h4
            exact ⟨rfl, h3.symm⟩
          | error pe => simp [sharpCompressOne, hf, hm, hw, hp] at h
  · intro o url os cs sv buf f h
    cases hf : o.fetch url with
    | error e => simp [tinifyCompressImage, hf] at h
    | ok bc =>
      obtain ⟨b, ct⟩ := bc
      cases hd : tinifyDetectFormat o url ct with
      | error e => simp [tinifyCompressImage, hf, hd] at h
      | ok fmt =>
        cases hc : o.convert b fmt with
        | error e => simp [tinifyCompressImage, hf, hd, hc] at h
        | ok cbuf =>
          simp only [tinifyCompressImage, hf, hd, hc,
            TinifyOutcome.ok.injEq] at h
          obtain ⟨h1, h2, h3, h4, -⟩ := h
          subst h1 h2 h4
          refine ⟨rfl, ?_⟩
          rw [← h3]
          ring

/-- C1 witness: the amended accounting evaluated on the concrete inflating
oracle — the sharp engine reports `compressedSize = 3` for the three-byte
output and `savings = 1 - 3/1 = -2`. -/
theorem engine_size_accounting_witness :
    (3 : Nat) = ([0, 1, 2] : List Nat).length ∧
      (-2 : ℚ) = 1 - (3 : ℚ) / (1 : ℚ) :=
  engine_size_accounting.1 inflatingSharpOracle ['u'] 40 1200 1200 1 3 (-2)
    [0, 1, 2] (strChars "webp") none (by
      simp only [sharpCompressOne, inflatingSharpOracle]
      norm_num)

/-- C10: every successful sharp result is WebP with no warning, or PNG
exactly when the WebP encode threw — then the warning records the WebP error
and the result is still a success.  In particular the output format is never
the source's native format unless that is `webp` or `png`. -/
theorem sharp_success_format (o : SharpOracle) (url : Url)
    (q mw mh os cs : Nat) (sv : ℚ) (buf : List Nat) (f : List Char)
    (w : Option (List Char))
    (h : sharpCompressOne o url q mw mh = .ok os cs sv buf f w) :
    (f = strChars "webp" ∧ w = none) ∨
    (f = strChars "png" ∧ w.isSome = true ∧
      ∃ b resized e, o.fetchBytes url = .ok b ∧
        o.webpEncode b resized q = .error e ∧
        w = some (strChars "Used PNG fallback: " ++ e)) := by
  cases hf : o.fetchBytes url with
  | error e => simp [sharpCompressOne, hf] at h
  | ok b =>
    cases hm : o.metadata b with
    | error e => simp [sharpCompressOne, hf, hm] at h
    | ok m =>
      cases hw : o.webpEncode b
          (decide (m.width > mw) || decide (m.height > mh)) q with
      | ok cbuf =>
        simp only [sharpCompressOne, hf, hm, hw, SharpOutcome.ok.injEq] at h
        obtain ⟨-, -, -, -, h5, h6⟩ := h
        exact Or.inl ⟨h5.symm, h6.symm⟩
      | error we =>
        cases hp : o.pngEncode b
            (decide (m.width > mw) || decide (m.height > mh)) q with
        | ok pbuf =>
          simp only [sharpCompressOne, hf, hm, hw, hp,
            SharpOutcome.ok.injEq] at h
          obtain ⟨-, -, -, -, h5, h6⟩ := h
          exact Or.inr ⟨h5.symm, by simp [← h6],
            b, _, we, rfl, hw, h6.symm⟩
        | error pe => simp [sharpCompressOne, hf, hm, hw, hp] at h

/-- Fixture: a sharp-engine collaborator whose WebP codec throws and whose
PNG fallback succeeds. -/
def webpFailingOracle : SharpOracle :=
  { fetchBytes := fun _ => .ok [0, 0, 0],
    metadata := fun _ => .ok { width := 1, height := 1 },
    webpEncode := fun _ _ _ => .error (strChars "boom"),
    pngEncode := fun _ _ _ => .ok [0] }

/-- C10 witness: with the WebP codec throwing, the concrete run succeeds in
PNG with the fallback warning set. -/
theorem sharp_success_format_witness :
    (strChars "png" = strChars "webp" ∧
      (some (strChars "Used PNG fallback: boom")).isNone = true) ∨
    (strChars "png" = strChars "png" ∧
      (some (strChars "Used PNG fallback: boom")).isSome = true ∧
      ∃ b resized e, webpFailingOracle.fetchBytes ['u'] = .ok b ∧
        webpFailingOracle.webpEncode b resized 40 = .error e ∧
        some (strChars "Used PNG fallback: boom") =
          some (strChars "Used PNG fallback: " ++ e)) := by
  have h0 : sharpCompressOne webpFailingOracle ['u'] 40 1200 1200 =
      SharpOutcome.ok 3 1 (1 - (1 : ℚ) / 3) [0] (strChars "png")
        (some (strChars "Used PNG fallback: boom")) := by
    simp only [sharpCompressOne, webpFailingOracle]
    norm_num [strChars]
  have := sharp_success_format webpFailingOracle ['u'] 40 1200 1200 3 1
    (1 - (1 : ℚ) / 3) [0] (strChars "png")
    (some (strChars "Used PNG fallback: boom")) h0
  simpa [Option.isNone] using this

/-! ## Orchestrator: the batch-compress action and the revert action -/

/-- The per-image value yielded by either engine generator, as consumed by
the route (`api.compress-images.jsx`).  Tinify results carry the processed
`url`; sharp success results do not, hence `url : Option Url`. -/
structure EngineResult where
  url : Option Url
  success : Bool
  originalSize : Nat
  compressedSize : Nat
  savings : ℚ
  buffer : List Nat
  format : List Char
deriving Repr, DecidableEq

/-- What `compressFunction([url]).next()` does for one URL: yield a result,
or reject (the `genError` path of the route, rethrown as
`Compression failed: ...` and caught by the per-item `catch`). -/
inductive EngineOut where
  | yielded (r : EngineResult)
  | threw (msg : List Char)
deriving Repr, DecidableEq

/-- An HTTP call made against the Shopify Admin API: creating a product image
from a source URL, or deleting a product image. -/
inductive ShopEvent where
  | create (productId : Nat) (src : Url)
  | delete (productId : Nat) (imageId : Nat)
deriving Repr, DecidableEq

/-- Collaborator oracle for the Shopify Admin API: the outcome of the
create-image call (`.ok newImageId`, or `.error` for a non-2xx response or a
transport failure).  The delete call's response is never inspected by the
code. -/
structure ShopOracle where
  createResult : Nat → Url → Except (List Char) Nat

/-- The `shopify` field attached to a result after an origin-swap attempt. -/
structure SwapInfo where
  productId : Option Nat
  replaced : Bool
  newImageId : Option Nat
  oldImageId : Option Nat
  error : Option (List Char)
deriving Repr, DecidableEq

/-- One entry of the route's `results` array.  Absent JavaScript properties
are `none`; in particular the route's fresh-store `resultToPush` object is
built *without* a `success` property (an absent property is falsy in the
`r.success` aggregate filter), embedded as `success := false` there. -/
structure BatchItem where
  url : Option Url
  success : Bool
  originalSize : Option Nat
  compressedSize : Option Nat
  savings : Option ℚ
  format : Option (List Char)
  compressedUrl : Option Url
  fromCache : Bool
  storageError : Option (List Char)
  shopify : Option SwapInfo
  error : Option (List Char)
deriving Repr, DecidableEq

/-- The failed-item shape pushed by the per-item `catch` and by the
no-usable-result branch. -/
def failedItem (url : Url) (msg : List Char) : BatchItem :=
  { url := some url, success := false, originalSize := none,
    compressedSize := none, savings := none, format := none,
    compressedUrl := none, fromCache := false, storageError := none,
    shopify := none, error := some msg }

/-- The cache-hit result pushed by the route:
`{url, success: true, originalSize: stored.originalSize || 0, compressedSize:
stored.size || 0, savings: stored.originalSize ? 1 - size/originalSize : 0,
format: stored.format || 'webp', compressedUrl: stored.url, fromCache:
true}`. -/
def cacheHitItem (url : Url) (f : Found) : BatchItem :=
  { url := some url, success := true,
    originalSize := some (f.originalSize.getD 0),
    compressedSize := some f.size,
    savings := some (match f.originalSize with
      | some o => if o = 0 then 0 else 1 - (f.size : ℚ) / (o : ℚ)
      | none => 0),
    format := some (if f.format.isEmpty then strChars "webp" else f.format),
    compressedUrl := f.url,
    fromCache := true, storageError := none, shopify := none, error := none }

/-- The return value of `storeCompressedImage` that the route consumes
(`storedImage.url`). -/
structure StoredRet where
  id : Nat
  url : Url
deriving Repr, DecidableEq

/-- `compressed/${uuidv4()}.${normalizedFormat}` — the fresh blob name; the
uuid is modelled by the store counter (fresh per write). -/
def mkStoragePathName (n : Nat) (fmt : List Char) : Url :=
  strChars "compressed/" ++ List.replicate (n + 1) 'u' ++ '.' :: fmt

/-- The token download URL built for a stored blob; like the real one it
carries a query component after the object path. -/
def mkPublicUrl (path : Url) : Url :=
  strChars "https://firebasestorage.googleapis.com/v0/b/bkt/o/" ++ path ++
    '?' :: strChars "alt=media"

/-- `storeCompressedImage(imageBuffer, originalUrl, metadata)` —
`firebaseStorage.server.js` lines 13–131: reject an empty buffer, write a
fresh blob, then add a Firestore document
`{originalUrl: canonical(originalUrl), compressedUrl: publicUrl, size,
format, ...metadata, _storageMetadata: {storagePath, ...}}`.  The caller's
metadata is spread *after* the `format` field, so the stored `format` is the
caller's `metadata.format` (the normalized variant only names the file).
`storeOk = false` models the storage or Firestore write throwing; every
throw is rethrown to the route (`Failed to store compressed image: ...`). -/
def storeCompressedImage (storeOk : Bool) (st : Store) (buffer : List Nat)
    (originalUrl : Url) (originalSize : Option Nat) (fmt : List Char) :
    Except (List Char) (StoredRet × Store) :=
  if buffer.isEmpty then
    .error (strChars "Failed to store compressed image: Image buffer is empty")
  else if !storeOk then
    .error (strChars "Failed to store compressed image: storage failure")
  else
    let normalizedFormat :=
      if fmt == strChars "jpeg" then strChars "jpg" else fmt
    let fileName := mkStoragePathName st.nextId normalizedFormat
    let publicUrl := mkPublicUrl fileName
    let doc : ImageDoc :=
      { id := st.nextId, originalUrl := canonical originalUrl,
        compressedUrl := publicUrl, size := buffer.length, format := fmt,
        originalSize := originalSize, shopifyImageId := none,
        shopifyCompressedUrl := none, storagePath := some fileName }
    .ok ({ id := st.nextId, url := publicUrl },
      { st with
          docs := st.docs ++ [doc],
          bucket := st.bucket ++ [fileName],
          nextId := st.nextId + 1 })

/-- The tail of the route's usable-result branch, from the
`storeCompressedImage` call on: on a successful store build the pushed
result (the route's `resultToPush`, built without a `success` property) and
optionally origin-swap it (`shop && accessToken && productIds[i]`): create
the new product image, then delete the old image id when one was given; a
create failure is reported inline (`replaced: false`).  A storage failure
keeps the engine result with `compressedUrl` falling back to the input
URL. -/
def afterStore (sh : ShopOracle) (hasAuth : Bool) (st1 : Store) (url : Url)
    (productId imageId : Option Nat) (r : EngineResult) (savingsOut : ℚ)
    (stRes : Except (List Char) (StoredRet × Store)) :
    BatchItem × Store × List ShopEvent :=
  match stRes with
  | .ok (stored, st2) =>
    let base : BatchItem :=
      { url := some url, success := false,
        originalSize := some r.originalSize,
        compressedSize := some r.compressedSize,
        savings := some savingsOut, format := some r.format,
        compressedUrl := some stored.url, fromCache := false,
        storageError := none, shopify := none, error := none }
    match productId with
    | some pid =>
      if hasAuth then
        match sh.createResult pid stored.url with
        | .ok newId =>
          let info : SwapInfo :=
            { productId := some pid, replaced := true,
              newImageId := some newId, oldImageId := imageId,
              error := none }
          ({ base with shopify := some info }, st2,
            ShopEvent.create pid stored.url ::
              (match imageId with
               | some old => [ShopEvent.delete pid old]
               | none => []))
        | .error e =>
          let info : SwapInfo :=
            { productId := none, replaced := false,
              newImageId := none, oldImageId := none,
              error := some e }
          ({ base with shopify := some info }, st2,
            [ShopEvent.create pid stored.url])
      else (base, st2, [])
    | none => (base, st2, [])
  | .error msg =>
    ({ url := r.url, success := r.success,
       originalSize := some r.originalSize,
       compressedSize := some r.compressedSize,
       savings := some savingsOut, format := some r.format,
       compressedUrl := some url, fromCache := false,
       storageError := some msg, shopify := none, error := none },
      st1, [])

/-- One iteration of the route's per-URL loop (`api.compress-images.jsx`,
revision with the Shopify swap, lines 341–560): cache check first; on a miss
consume the engine (a generator rejection becomes a failed item via the
per-item `catch`); a usable result (`success` and a non-empty buffer) is
stored and optionally origin-swapped (`afterStore`); anything else is a
failed item. -/
def processItem (ora : Oracle) (sh : ShopOracle) (storeOk hasAuth : Bool)
    (eout : EngineOut) (st : Store) (url : Url)
    (productId imageId : Option Nat) :
    BatchItem × Store × List ShopEvent :=
  match findStoredImage ora st url none with
  | (some f, docs2) => (cacheHitItem url f, { st with docs := docs2 }, [])
  | (none, docs2) =>
    let st1 : Store := { st with docs := docs2 }
    match eout with
    | .threw msg =>
      (failedItem url (strChars "Compression failed: " ++ msg), st1, [])
    | .yielded r =>
      if r.success && !r.buffer.isEmpty then
        let savingsCalc : ℚ :=
          1 - (r.compressedSize : ℚ) / (r.originalSize : ℚ)
        let savingsOut : ℚ := if r.savings == 0 then savingsCalc else r.savings
        let formatToStore :=
          if r.format.isEmpty then strChars "webp" else r.format
        afterStore sh hasAuth st1 url productId imageId r savingsOut
          (storeCompressedImage storeOk st1 r.buffer url
            (some r.originalSize) formatToStore)
      else (failedItem url (strChars "Compression failed"), st1, [])

/-- The route's sequential per-URL loop: items are processed strictly in
submission order, each threading the evolved store; `productIds[i]` /
`imageIds[i]` are the aligned optional origin identifiers (an out-of-range
index is JavaScript `undefined`). -/
def runBatch (ora : Oracle) (sh : ShopOracle) (storeOk hasAuth : Bool)
    (engine : Url → EngineOut) (st : Store) (urls : List Url)
    (productIds imageIds : List (Option Nat)) :
    List BatchItem × Store × List ShopEvent :=
  match urls with
  | [] => ([], st, [])
  | u :: rest =>
    let step := processItem ora sh storeOk hasAuth (engine u) st u
      productIds.head?.join imageIds.head?.join
    let next := runBatch ora sh storeOk hasAuth engine step.2.1 rest
      productIds.tail imageIds.tail
    (step.1 :: next.1, next.2.1, step.2.2 ++ next.2.2)

/-- `parseFloat(x.toFixed(2))` — rounding to two decimal places. -/
def round2 (x : ℚ) : ℚ := (round (x * 100) : ℤ) / 100

/-- The aggregate fields of the complete response. -/
structure BatchTotals where
  totalProcessed : Nat
  totalSuccessful : Nat
  totalErrors : Nat
  totalOriginalSize : Nat
  totalCompressedSize : Nat
  totalSavings : ℚ
deriving Repr, DecidableEq

/-- The aggregate block shared by the route revisions and
`src/unnamed/part_000` (lines 106–123): filter on `r.success`, sum
`r.originalSize || 0` and `r.compressedSize || 0` over the successful
entries, and report `totalSavings = (1 - totalCompressed/totalOriginal) *
100` (two decimals) when the original total is positive, else `0`. -/
def aggregates (results : List BatchItem) : BatchTotals :=
  let successful := results.filter (fun r => r.success)
  let tO := (successful.map (fun r => r.originalSize.getD 0)).sum
  let tC := (successful.map (fun r => r.compressedSize.getD 0)).sum
  { totalProcessed := results.length,
    totalSuccessful := successful.length,
    totalErrors := results.length - successful.length,
    totalOriginalSize := tO,
    totalCompressedSize := tC,
    totalSavings :=
      if 0 < tO then round2 ((1 - (tC : ℚ) / (tO : ℚ)) * 100) else 0 }

/-- The JSON answer of the batch-compress action: a whole-batch error
(empty URL list, missing tinify credentials, or an unhandled throw) or the
complete response. -/
inductive ActionResp where
  | errorResp (msg : List Char)
  | complete (results : List BatchItem) (totals : BatchTotals)
deriving Repr, DecidableEq

/-- The batch-compress `action`: drop falsy URLs (`.filter(url => url)`),
reject an empty list (400) and a tinify run without the API key (500), then
run the sequential loop and attach the aggregates. -/
def compressAction (ora : Oracle) (sh : ShopOracle) (storeOk hasAuth : Bool)
    (engine : Url → EngineOut) (tinifyKeySet : Bool) (strategy : List Char)
    (st : Store) (urls : List Url) (productIds imageIds : List (Option Nat)) :
    ActionResp × Store × List ShopEvent :=
  let imageUrls := urls.filter (fun u => u != [])
  if imageUrls.isEmpty then
    (.errorResp (strChars "No image URLs provided"), st, [])
  else if strategy == strChars "tinify" && !tinifyKeySet then
    (.errorResp (strChars
      "Server configuration error: Tinify API key is not set"), st, [])
  else
    let run := runBatch ora sh storeOk hasAuth engine st imageUrls
      productIds imageIds
    (.complete run.1 (aggregates run.1), run.2.1, run.2.2)

/-- The JSON answer of the `/api/revert-image` action. -/
inductive RevertResp where
  | badRequest
  | notFound
  | reverted (requestedUrl : Url) (restoredSize : Nat) (restoredUrl : Url)
      (format : Url) (shopify : Option SwapInfo)
deriving Repr, DecidableEq

/-- The `/api/revert-image` `action` (`src/firebase-test.js` lines 31–106):
400 without a `url`; look up the Original Archive, 404 on absence; with a
product id and an authenticated session, create the new product image from
the archived original's stored URL and only then delete the old
(compressed) image id when one was given — a create failure is reported
inline and does not prevent returning the restored metadata
(`restoredSize = original.size`). -/
def revertAction (ora : Oracle) (sh : ShopOracle) (st : Store)
    (hasAuth : Bool) (url : Url) (productId imageId : Option Nat) :
    RevertResp × List ShopEvent :=
  if url.isEmpty then (.badRequest, [])
  else
    match findOriginalImage ora st url with
    | none => (.notFound, [])
    | some o =>
      match productId with
      | some pid =>
        if hasAuth then
          match sh.createResult pid o.storedUrl with
          | .ok newId =>
            let info : SwapInfo :=
              { productId := none, replaced := true,
                newImageId := some newId, oldImageId := imageId,
                error := none }
            (.reverted url o.size o.storedUrl o.format (some info),
              ShopEvent.create pid o.storedUrl ::
                (match imageId with
                 | some old => [ShopEvent.delete pid old]
                 | none => []))
          | .error e =>
            let info : SwapInfo :=
              { productId := none, replaced := false, newImageId := none,
                oldImageId := none, error := some e }
            (.reverted url o.size o.storedUrl o.format (some info),
              [ShopEvent.create pid o.storedUrl])
        else (.reverted url o.size o.storedUrl o.format none, [])
      | none => (.reverted url o.size o.storedUrl o.format none, [])

/-! ## C3: one result per input URL, in order, failures contained -/

theorem afterStore_url_or_storageError (sh : ShopOracle) (hasAuth : Bool)
    (st1 : Store) (url : Url) (pid iid : Option Nat) (r : EngineResult)
    (savingsOut : ℚ) (stRes : Except (List Char) (StoredRet × Store)) :
    (afterStore sh hasAuth st1 url pid iid r savingsOut stRes).1.url =
      some url ∨
    (afterStore sh hasAuth st1 url pid iid r savingsOut
      stRes).1.storageError.isSome = true := by
  unfold afterStore
  repeat' split
  all_goals simp

theorem processItem_url_or_storageError (ora : Oracle) (sh : ShopOracle)
    (storeOk hasAuth : Bool) (eout : EngineOut) (st : Store) (url : Url)
    (pid iid : Option Nat) :
    (processItem ora sh storeOk hasAuth eout st url pid iid).1.url =
      some url ∨
    (processItem ora sh storeOk hasAuth eout st url pid
      iid).1.storageError.isSome = true := by
  unfold processItem
  repeat' split
  all_goals
    first
      | apply afterStore_url_or_storageError
      | simp [failedItem, cacheHitItem]

theorem runBatch_forall2 (ora : Oracle) (sh : ShopOracle)
    (storeOk hasAuth : Bool) (engine : Url → EngineOut) :
    ∀ (urls : List Url) (st : Store) (pids iids : List (Option Nat)),
      List.Forall₂
        (fun u it => it.url = some u ∨ it.storageError.isSome = true)
        urls (runBatch ora sh storeOk hasAuth engine st urls pids iids).1 := by
  intro urls
  induction urls with
  | nil => intro st pids iids; exact List.Forall₂.nil
  | cons u rest ih =>
    intro st pids iids
    exact List.Forall₂.cons
      (processItem_url_or_storageError ora sh storeOk hasAuth (engine u) st u
        pids.head?.join iids.head?.join)
      (ih _ _ _)

/-- C3: for every non-empty list of (non-empty) submitted URLs the
batch-compress action answers with the complete response holding exactly one
result per input URL, in submission order (each result carries its input URL,
except the storage-degraded corner where the route spreads an engine result
lacking a `url` property); and a URL whose generator rejects on a cache miss
yields a failed result (`success = false` with the rethrown error message)
without aborting the batch. -/
theorem batch_one_result_per_url :
    (∀ (ora : Oracle) (sh : ShopOracle) (storeOk hasAuth : Bool)
        (engine : Url → EngineOut) (tinifyKeySet : Bool)
        (strategy : List Char) (st : Store) (urls : List Url)
        (pids iids : List (Option Nat)),
      urls ≠ [] → (∀ u ∈ urls, u ≠ ([] : Url)) →
      (strategy = strChars "tinify" → tinifyKeySet = true) →
      ∃ items totals st2 evs,
        compressAction ora sh storeOk hasAuth engine tinifyKeySet strategy st
            urls pids iids = (.complete items totals, st2, evs) ∧
        items.length = urls.length ∧
        List.Forall₂
          (fun u it => it.url = some u ∨ it.storageError.isSome = true)
          urls items) ∧
    (∀ (ora : Oracle) (sh : ShopOracle) (storeOk hasAuth : Bool) (st : Store)
        (url : Url) (pid iid : Option Nat) (msg : List Char),
      (findStoredImage ora st url none).1 = none →
        (processItem ora sh storeOk hasAuth (.threw msg) st url pid
            iid).1.success = false ∧
        (processItem ora sh storeOk hasAuth (.threw msg) st url pid
            iid).1.error = some (strChars "Compression failed: " ++ msg)) := by
  constructor
  · intro ora sh storeOk hasAuth engine tinifyKeySet strategy st urls pids
      iids hne hval hkey
    have hfilter : urls.filter (fun u => u != []) = urls := by
      refine List.filter_eq_self.mpr ?_
      intro u hu
      simpa using hval u hu
    have hempty : (urls.filter (fun u => u != [])).isEmpty = false := by
      rw [hfilter]
      cases urls with
      | nil => exact absurd rfl hne
      | cons a l => rfl
    have hguard : (strategy == strChars "tinify" && !tinifyKeySet) = false := by
      by_cases hs : strategy = strChars "tinify"
      · simp [hs, hkey hs]
      · simp [hs]
    refine ⟨(runBatch ora sh storeOk hasAuth engine st urls pids iids).1,
      aggregates (runBatch ora sh storeOk hasAuth engine st urls pids
        iids).1,
      (runBatch ora sh storeOk hasAuth engine st urls pids iids).2.1,
      (runBatch ora sh storeOk hasAuth engine st urls pids iids).2.2,
      ?_, ?_, ?_⟩
    · simp [compressAction, hfilter, hempty, hguard, hne]
    · exact (runBatch_forall2 ora sh storeOk hasAuth engine urls st pids
        iids).length_eq.symm
    · exact runBatch_forall2 ora sh storeOk hasAuth engine urls st pids iids
  · intro ora sh storeOk hasAuth st url pid iid msg hmiss
    unfold processItem
    rcases hfind : findStoredImage ora st url none with ⟨fopt, docs2⟩
    rcases fopt with _ | f
    · simp [failedItem]
    · rw [hfind] at hmiss
      simp at hmiss

/-- Fixture: the empty starting store. -/
def emptyStore : Store :=
  { docs := [], originals := [], bucket := [], nextId := 0 }

/-- Fixture: a Shopify collaborator whose create-image call always succeeds
with image id 1. -/
def okShop : ShopOracle := { createResult := fun _ _ => .ok 1 }

/-- Fixture: a successful engine result (10 bytes down to 5). -/
def goodResult : EngineResult :=
  { url := some (strChars "good"), success := true, originalSize := 10,
    compressedSize := 5, savings := 1/2, buffer := [0],
    format := strChars "webp" }

/-- Fixture: an engine that rejects on the URL `"bad"` and succeeds on any
other URL. -/
def mixedEngine : Url → EngineOut := fun u =>
  if u = strChars "bad" then .threw (strChars "boom")
  else .yielded { goodResult with url := some u }

/-- C3 witness: a concrete two-URL batch whose first generator rejects and
whose second succeeds — the response still carries one result per URL, in
order, with the first marked failed. -/
theorem batch_one_result_per_url_witness :
    (∃ items totals st2 evs,
      compressAction benignOracle okShop true false mixedEngine true
          (strChars "sharp") emptyStore [strChars "bad", strChars "good"]
          [] [] = (.complete items totals, st2, evs) ∧
      items.length = [strChars "bad", strChars "good"].length ∧
      List.Forall₂
        (fun u it => it.url = some u ∨ it.storageError.isSome = true)
        [strChars "bad", strChars "good"] items) ∧
    ((processItem benignOracle okShop true false
        (.threw (strChars "boom")) emptyStore (strChars "bad") none
        none).1.success = false ∧
      (processItem benignOracle okShop true false
        (.threw (strChars "boom")) emptyStore (strChars "bad") none
        none).1.error =
          some (strChars "Compression failed: " ++ strChars "boom")) :=
  ⟨batch_one_result_per_url.1 benignOracle okShop true false mixedEngine
     true (strChars "sharp") emptyStore [strChars "bad", strChars "good"]
     [] [] (by simp) (by decide) (fun _ => rfl),
   batch_one_result_per_url.2 benignOracle okShop true false emptyStore
     (strChars "bad") none none (strChars "boom") (by decide)⟩

/-! ## C7: batch aggregates over successful entries -/

/-- Fixture: a successful result with the given sizes. -/
def successItem (o c : Nat) : BatchItem :=
  { url := some (strChars "u"), success := true, originalSize := some o,
    compressedSize := some c, savings := some (1 - (c : ℚ) / (o : ℚ)),
    format := some (strChars "webp"), compressedUrl := some (strChars "cu"),
    fromCache := false, storageError := none, shopify := none,
    error := none }

/-- Fixture: a failed result (an unreachable URL). -/
def failedSample : BatchItem :=
  failedItem (strChars "u") (strChars "Failed to fetch image: 404")

/-- C7: the batch aggregates are computed only over the entries with
`success` true — the size totals sum those entries' sizes, `totalSavings`
follows `100 * (1 - totalCompressed/totalOriginal)` rounded to two decimals
when the original total is positive (else `0`); appending a failed item
changes `totalErrors` by one and no size total; and the concrete pair
(100→50), (200→100) yields `totalSavings = 50`. -/
theorem aggregates_over_successful :
    (∀ results : List BatchItem,
      (aggregates results).totalOriginalSize =
        ((results.filter (fun r => r.success)).map
          (fun r => r.originalSize.getD 0)).sum ∧
      (aggregates results).totalCompressedSize =
        ((results.filter (fun r => r.success)).map
          (fun r => r.compressedSize.getD 0)).sum ∧
      (aggregates results).totalErrors =
        results.length - (results.filter (fun r => r.success)).length ∧
      (aggregates results).totalSavings =
        (if 0 < (aggregates results).totalOriginalSize then
          round2 ((1 - ((aggregates results).totalCompressedSize : ℚ) /
            ((aggregates results).totalOriginalSize : ℚ)) * 100)
         else 0)) ∧
    (∀ (results : List BatchItem) (f : BatchItem), f.success = false →
      (aggregates (results ++ [f])).totalOriginalSize =
        (aggregates results).totalOriginalSize ∧
      (aggregates (results ++ [f])).totalCompressedSize =
        (aggregates results).totalCompressedSize ∧
      (aggregates (results ++ [f])).totalSuccessful =
        (aggregates results).totalSuccessful ∧
      (aggregates (results ++ [f])).totalErrors =
        (aggregates results).totalErrors + 1) ∧
    (aggregates [successItem 100 50, successItem 200 100]).totalSavings =
      50 ∧
    (aggregates [successItem 100 50,
      successItem 200 100]).totalOriginalSize = 300 ∧
    (aggregates [successItem 100 50,
      successItem 200 100]).totalCompressedSize = 150 := by
  refine ⟨fun results => ⟨rfl, rfl, rfl, rfl⟩, ?_, ?_, by decide, by decide⟩
  · intro results f hf
    have hfail : (results ++ [f]).filter (fun r => r.success) =
        results.filter (fun r => r.success) := by
      simp [List.filter_append, hf]
    have hle : (results.filter (fun r => r.success)).length ≤
        results.length := List.length_filter_le _ _
    refine ⟨by simp [aggregates, hfail], by simp [aggregates, hfail],
      by simp [aggregates, hfail], ?_⟩
    simp only [aggregates, hfail, List.length_append, List.length_singleton]
    omega
  · show (aggregates _).totalSavings = 50
    norm_num [aggregates, successItem, round2, strChars, failedItem]

/-- C7 witness: appending the concrete failed item to the concrete
successful pair leaves both size totals at (300, 150) and raises
`totalErrors` to one. -/
theorem aggregates_over_successful_witness :
    (aggregates ([successItem 100 50, successItem 200 100] ++
        [failedSample])).totalOriginalSize =
      (aggregates [successItem 100 50,
        successItem 200 100]).totalOriginalSize ∧
    (aggregates ([successItem 100 50, successItem 200 100] ++
        [failedSample])).totalCompressedSize =
      (aggregates [successItem 100 50,
        successItem 200 100]).totalCompressedSize ∧
    (aggregates ([successItem 100 50, successItem 200 100] ++
        [failedSample])).totalSuccessful =
      (aggregates [successItem 100 50,
        successItem 200 100]).totalSuccessful ∧
    (aggregates ([successItem 100 50, successItem 200 100] ++
        [failedSample])).totalErrors =
      (aggregates [successItem 100 50,
        successItem 200 100]).totalErrors + 1 :=
  aggregates_over_successful.2.1 [successItem 100 50, successItem 200 100]
    failedSample rfl

/-! ## C6: cache idempotence of compress-twice -/

theorem storeCompressedImage_ok (st : Store) (buffer : List Nat) (url0 : Url)
    (osz : Option Nat) (fmt : List Char) (hb : buffer.isEmpty = false) :
    ∃ fileName,
      storeCompressedImage true st buffer url0 osz fmt =
        .ok ({ id := st.nextId, url := mkPublicUrl fileName },
          { st with
              docs := st.docs ++
                [{ id := st.nextId, originalUrl := canonical url0,
                   compressedUrl := mkPublicUrl fileName,
                   size := buffer.length, format := fmt,
                   originalSize := osz, shopifyImageId := none,
                   shopifyCompressedUrl := none,
                   storagePath := some fileName }],
              bucket := st.bucket ++ [fileName],
              nextId := st.nextId + 1 }) :=
  ⟨mkStoragePathName st.nextId
    (if fmt == strChars "jpeg" then strChars "jpg" else fmt),
   by simp [storeCompressedImage, hb]⟩

/-- Abbreviation (proof scaffolding, not source): the Firestore document a
fresh compress of `url` writes for engine result `r` under blob name
`fileName`. -/
def freshDoc (st : Store) (url : Url) (r : EngineResult) (fileName : Url) :
    ImageDoc :=
  { id := st.nextId, originalUrl := canonical url,
    compressedUrl := mkPublicUrl fileName, size := r.buffer.length,
    format := if r.format.isEmpty then strChars "webp" else r.format,
    originalSize := some r.originalSize, shopifyImageId := none,
    shopifyCompressedUrl := none, storagePath := some fileName }

/-- Abbreviation (proof scaffolding, not source): the result the route
pushes for that fresh compress (no origin identifiers supplied). -/
def freshItem (url : Url) (r : EngineResult) (fileName : Url) : BatchItem :=
  { url := some url, success := false,
    originalSize := some r.originalSize,
    compressedSize := some r.compressedSize,
    savings := some (if r.savings == 0 then
      1 - (r.compressedSize : ℚ) / (r.originalSize : ℚ) else r.savings),
    format := some r.format,
    compressedUrl := some (mkPublicUrl fileName), fromCache := false,
    storageError := none, shopify := none, error := none }

/-- Abbreviation (proof scaffolding, not source): the store after that
fresh compress. -/
def storeAfter (st : Store) (url : Url) (r : EngineResult) (fileName : Url) :
    Store :=
  { st with
      docs := st.docs ++ [freshDoc st url r fileName],
      bucket := st.bucket ++ [fileName],
      nextId := st.nextId + 1 }

theorem processItem_cache_hit (ora : Oracle) (sh : ShopOracle)
    (storeOk hasAuth : Bool) (eout : EngineOut) (st2 : Store) (url : Url)
    (d : ImageDoc) (hq : ora.queryOk = true)
    (hfound : st2.docs.find? (fun x => x.originalUrl == canonical url) =
      some d)
    (hpath : ∃ p, d.storagePath = some p ∧ ora.existsThrows p = false ∧
      st2.bucket.contains p = true) :
    processItem ora sh storeOk hasAuth eout st2 url none none =
      (cacheHitItem url (mkFoundWithUrl d), st2, []) := by
  have hcheck := checkDoc_healthy ora st2 d hpath
  have hf : findStoredImage ora st2 url none =
      (some (mkFoundWithUrl d), st2.docs) := by
    simp [findStoredImage, findStoredImageByUrl, hq, hfound, hcheck]
  unfold processItem
  rw [hf]

/-- C6: compressing the same URL twice through the batch-compress action —
starting from a store holding no record matching its canonical key, with a
reachable and non-throwing persistence layer, a working blob store, and an
engine succeeding with a non-empty buffer — makes the second call a cache
hit (`fromCache = true`) whose `compressedUrl` is exactly the
`compressedUrl` returned by the first call. -/
theorem cache_idempotent (ora : Oracle) (sh : ShopOracle) (hasAuth : Bool)
    (engine : Url → EngineOut) (tinifyKeySet : Bool) (strategy : List Char)
    (st : Store) (url : Url) (r : EngineResult)
    (hq : ora.queryOk = true)
    (hnothrow : ∀ p, ora.existsThrows p = false)
    (hurl : url ≠ [])
    (heng : engine url = .yielded r)
    (hsucc : r.success = true)
    (hbuf : r.buffer ≠ [])
    (hkey : strategy = strChars "tinify" → tinifyKeySet = true)
    (hclean : ∀ d ∈ st.docs, d.originalUrl ≠ canonical url ∧
      d.shopifyCompressedUrl ≠ some (canonical url) ∧
      d.compressedUrl ≠ canonical url) :
    ∃ item1 item2 totals1 totals2 st1 st2,
      compressAction ora sh true hasAuth engine tinifyKeySet strategy st
          [url] [] [] = (.complete [item1] totals1, st1, []) ∧
      compressAction ora sh true hasAuth engine tinifyKeySet strategy st1
          [url] [] [] = (.complete [item2] totals2, st2, []) ∧
      item1.fromCache = false ∧
      item2.fromCache = true ∧
      item1.compressedUrl.isSome = true ∧
      item2.compressedUrl = item1.compressedUrl := by
  have hbufe : r.buffer.isEmpty = false := by
    cases hbb : r.buffer with
    | nil => exact absurd hbb hbuf
    | cons a l => rfl
  have h1 : st.docs.find? (fun d => d.originalUrl == canonical url) =
      none := by
    refine List.find?_eq_none.mpr ?_
    intro d hd
    simpa using (hclean d hd).1
  have h2 : st.docs.find?
      (fun d => d.shopifyCompressedUrl == some (canonical url)) = none := by
    refine List.find?_eq_none.mpr ?_
    intro d hd
    simpa using (hclean d hd).2.1
  have h3 : st.docs.find? (fun d => d.compressedUrl == canonical url) =
      none := by
    refine List.find?_eq_none.mpr ?_
    intro d hd
    simpa using (hclean d hd).2.2
  have hfind1 : findStoredImage ora st url none = (none, st.docs) := by
    simp [findStoredImage, findStoredImageByUrl, hq, h1, h2, h3]
  obtain ⟨fileName, hstore⟩ := storeCompressedImage_ok st r.buffer url
    (some r.originalSize)
    (if r.format.isEmpty then strChars "webp" else r.format) hbufe
  have hitem1 : processItem ora sh true hasAuth (engine url) st url none
      none = (freshItem url r fileName, storeAfter st url r fileName, []) := by
    rw [heng]
    unfold processItem
    rw [hfind1]
    simp only [hsucc, hbufe, Bool.not_false, Bool.and_self, if_true]
    rw [hstore]
    rfl
  have hfilter : [url].filter (fun u => u != []) = [url] := by
    simp [hurl]
  have hguard : (strategy == strChars "tinify" && !tinifyKeySet) = false := by
    by_cases hs : strategy = strChars "tinify"
    · simp [hs, hkey hs]
    · simp [hs]
  have hact1 : compressAction ora sh true hasAuth engine tinifyKeySet
      strategy st [url] [] [] =
      (.complete [freshItem url r fileName]
        (aggregates [freshItem url r fileName]),
        storeAfter st url r fileName, []) := by
    simp [compressAction, hfilter, hguard, runBatch, hitem1]
  have hfound2 : (storeAfter st url r fileName).docs.find?
      (fun d => d.originalUrl == canonical url) =
      some (freshDoc st url r fileName) := by
    simp [storeAfter, List.find?_append, h1, freshDoc]
  have hpath2 : ∃ p, (freshDoc st url r fileName).storagePath = some p ∧
      ora.existsThrows p = false ∧
      (storeAfter st url r fileName).bucket.contains p = true :=
    ⟨fileName, rfl, hnothrow fileName, by simp [storeAfter]⟩
  have hitem2 := processItem_cache_hit ora sh true hasAuth (engine url)
    (storeAfter st url r fileName) url (freshDoc st url r fileName) hq
    hfound2 hpath2
  have hact2 : compressAction ora sh true hasAuth engine tinifyKeySet
      strategy (storeAfter st url r fileName) [url] [] [] =
      (.complete
        [cacheHitItem url (mkFoundWithUrl (freshDoc st url r fileName))]
        (aggregates
          [cacheHitItem url (mkFoundWithUrl (freshDoc st url r fileName))]),
        storeAfter st url r fileName, []) := by
    simp [compressAction, hfilter, hguard, runBatch, hitem2]
  exact ⟨freshItem url r fileName,
    cacheHitItem url (mkFoundWithUrl (freshDoc st url r fileName)), _, _,
    storeAfter st url r fileName, storeAfter st url r fileName,
    hact1, hact2, rfl, rfl, rfl, rfl⟩

/-- C6 witness: the concrete single-URL batch compressed twice from the
empty store — the second response is a cache hit with the same
`compressedUrl`. -/
theorem cache_idempotent_witness :
    ∃ item1 item2 totals1 totals2 st1 st2,
      compressAction benignOracle okShop true false mixedEngine true
          (strChars "sharp") emptyStore [strChars "good"] [] [] =
        (.complete [item1] totals1, st1, []) ∧
      compressAction benignOracle okShop true false mixedEngine true
          (strChars "sharp") st1 [strChars "good"] [] [] =
        (.complete [item2] totals2, st2, []) ∧
      item1.fromCache = false ∧
      item2.fromCache = true ∧
      item1.compressedUrl.isSome = true ∧
      item2.compressedUrl = item1.compressedUrl :=
  cache_idempotent benignOracle okShop false mixedEngine true
    (strChars "sharp") emptyStore (strChars "good")
    { goodResult with url := some (strChars "good") }
    rfl (fun _ => rfl) (by decide) rfl rfl (by decide)
    (fun _ => rfl) (by simp [emptyStore])

/-! ## C2: compress-then-revert round trip -/

theorem storeCompressedImage_originals (storeOk : Bool) (st : Store)
    (b : List Nat) (u : Url) (o : Option Nat) (f : List Char)
    (ret : StoredRet) (st2 : Store)
    (h : storeCompressedImage storeOk st b u o f = .ok (ret, st2)) :
    st2.originals = st.originals := by
  by_cases hb : b.isEmpty = true
  · simp [storeCompressedImage, hb] at h
  · simp only [Bool.not_eq_true] at hb
    by_cases hok : storeOk = true
    · simp only [storeCompressedImage, hb, hok, Bool.false_eq_true,
        if_false, Bool.not_true, Except.ok.injEq, Prod.mk.injEq] at h
      rw [← h.2]
    · simp only [Bool.not_eq_true] at hok
      simp [storeCompressedImage, hb, hok] at h

theorem afterStore_originals (sh : ShopOracle) (hasAuth : Bool) (st1 : Store)
    (url : Url) (pid iid : Option Nat) (r : EngineResult) (so : ℚ)
    (stRes : Except (List Char) (StoredRet × Store))
    (h : ∀ ret st2, stRes = .ok (ret, st2) → st2.originals = st1.originals) :
    ((afterStore sh hasAuth st1 url pid iid r so stRes).2.1).originals =
      st1.originals := by
  cases stRes with
  | error e => rfl
  | ok v =>
    obtain ⟨ret, st2⟩ := v
    have h2 := h ret st2 rfl
    unfold afterStore
    dsimp only
    repeat' split
    all_goals exact h2

theorem processItem_originals (ora : Oracle) (sh : ShopOracle)
    (storeOk hasAuth : Bool) (eout : EngineOut) (st : Store) (url : Url)
    (pid iid : Option Nat) :
    ((processItem ora sh storeOk hasAuth eout st url pid
      iid).2.1).originals = st.originals := by
  unfold processItem
  rcases hf : findStoredImage ora st url none with ⟨fopt, docs2⟩
  rcases fopt with _ | f
  · rcases eout with r | msg
    · by_cases hc : (r.success && !r.buffer.isEmpty) = true
      · simp only [hc, if_true]
        refine afterStore_originals sh hasAuth _ url pid iid r _ _ ?_
        intro ret st2 hst
        exact storeCompressedImage_originals storeOk _ _ _ _ _ _ _ hst
      · simp only [Bool.not_eq_true] at hc
        simp only [hc]
        rfl
    · rfl
  · rfl

theorem runBatch_originals (ora : Oracle) (sh : ShopOracle)
    (storeOk hasAuth : Bool) (engine : Url → EngineOut) :
    ∀ (urls : List Url) (st : Store) (pids iids : List (Option Nat)),
      ((runBatch ora sh storeOk hasAuth engine st urls pids
        iids).2.1).originals = st.originals := by
  intro urls
  induction urls with
  | nil => intro st pids iids; rfl
  | cons u rest ih =>
    intro st pids iids
    show ((runBatch ora sh storeOk hasAuth engine _ rest _ _).2.1).originals
      = st.originals
    rw [ih]
    exact processItem_originals ora sh storeOk hasAuth (engine u) st u _ _

/-- Abbreviation (proof scaffolding, not source): the `shopify` field after
a successful origin swap. -/
def swapOk (pid newId : Nat) (iid : Option Nat) : SwapInfo :=
  { productId := some pid, replaced := true, newImageId := some newId,
    oldImageId := iid, error := none }

/-- C2 (code bug): the batch-compress action performs the origin swap
without ever writing the Original Archive — `storeOriginalImage` has no
caller — so (a) no run of the action changes the `originalImages`
collection; (b) the revert action, when it does find an archived original
and origin identifiers are supplied, attempts create-then-delete in that
order; and (c) a URL compressed-and-swapped starting from an empty archive
reverts to `NotFoundError` (404 `Original image not found`) instead of
restoring the recorded original size. -/
theorem compress_swap_then_revert_not_found :
    (∀ (ora : Oracle) (sh : ShopOracle) (storeOk hasAuth : Bool)
        (engine : Url → EngineOut) (tinifyKeySet : Bool)
        (strategy : List Char) (st : Store) (urls : List Url)
        (pids iids : List (Option Nat)),
      ((compressAction ora sh storeOk hasAuth engine tinifyKeySet strategy
        st urls pids iids).2.1).originals = st.originals) ∧
    (∀ (ora : Oracle) (sh : ShopOracle) (st : Store) (url : Url)
        (pid old newId : Nat) (o : OrigDoc),
      url ≠ [] →
      findOriginalImage ora st url = some o →
      sh.createResult pid o.storedUrl = .ok newId →
      (revertAction ora sh st true url (some pid) (some old)).2 =
        [ShopEvent.create pid o.storedUrl, ShopEvent.delete pid old]) ∧
    (∀ (ora : Oracle) (sh : ShopOracle) (engine : Url → EngineOut)
        (tinifyKeySet : Bool) (strategy : List Char) (st : Store)
        (url : Url) (r : EngineResult) (pid iid newId : Nat),
      ora.queryOk = true →
      url ≠ [] →
      engine url = .yielded r →
      r.success = true →
      r.buffer ≠ [] →
      (strategy = strChars "tinify" → tinifyKeySet = true) →
      (∀ d ∈ st.docs, d.originalUrl ≠ canonical url ∧
        d.shopifyCompressedUrl ≠ some (canonical url) ∧
        d.compressedUrl ≠ canonical url) →
      (∀ p u, sh.createResult p u = .ok newId) →
      st.originals = [] →
      ∃ item totals st1 evs,
        compressAction ora sh true true engine tinifyKeySet strategy st
            [url] [some pid] [some iid] =
          (.complete [item] totals, st1, evs) ∧
        item.shopify = some (swapOk pid newId (some iid)) ∧
        revertAction ora sh st1 true url (some pid) (some iid) =
          (.notFound, [])) := by
  refine ⟨?_, ?_, ?_⟩
  · intro ora sh storeOk hasAuth engine tinifyKeySet strategy st urls pids
      iids
    unfold compressAction
    dsimp only
    split
    · rfl
    · split
      · rfl
      · exact runBatch_originals ora sh storeOk hasAuth engine _ st pids
          iids
  · intro ora sh st url pid old newId o hurl hfo hcr
    have hue : url.isEmpty = false := by
      cases hu : url with
      | nil => exact absurd hu hurl
      | cons a l => rfl
    simp [revertAction, hue, hfo, hcr]
  · intro ora sh engine tinifyKeySet strategy st url r pid iid newId hq hurl
      heng hsucc hbuf hkey hclean hcreate horig
    have hbufe : r.buffer.isEmpty = false := by
      cases hbb : r.buffer with
      | nil => exact absurd hbb hbuf
      | cons a l => rfl
    have h1 : st.docs.find? (fun d => d.originalUrl == canonical url) =
        none := by
      refine List.find?_eq_none.mpr ?_
      intro d hd
      simpa using (hclean d hd).1
    have h2 : st.docs.find?
        (fun d => d.shopifyCompressedUrl == some (canonical url)) =
        none := by
      refine List.find?_eq_none.mpr ?_
      intro d hd
      simpa using (hclean d hd).2.1
    have h3 : st.docs.find? (fun d => d.compressedUrl == canonical url) =
        none := by
      refine List.find?_eq_none.mpr ?_
      intro d hd
      simpa using (hclean d hd).2.2
    have hfind1 : findStoredImage ora st url none = (none, st.docs) := by
      simp [findStoredImage, findStoredImageByUrl, hq, h1, h2, h3]
    obtain ⟨fileName, hstore⟩ := storeCompressedImage_ok st r.buffer url
      (some r.originalSize)
      (if r.format.isEmpty then strChars "webp" else r.format) hbufe
    have hitem1 : processItem ora sh true true (engine url) st url
        (some pid) (some iid) =
        ({ freshItem url r fileName with
             shopify := some (swapOk pid newId (some iid)) },
          storeAfter st url r fileName,
          [ShopEvent.create pid (mkPublicUrl fileName),
           ShopEvent.delete pid iid]) := by
      rw [heng]
      unfold processItem
      rw [hfind1]
      simp only [hsucc, hbufe, Bool.not_false, Bool.and_self, if_true]
      rw [hstore]
      unfold afterStore
      dsimp only
      rw [hcreate]
      rfl
    have hfilter : [url].filter (fun u => u != []) = [url] := by
      simp [hurl]
    have hguard : (strategy == strChars "tinify" && !tinifyKeySet) =
        false := by
      by_cases hs : strategy = strChars "tinify"
      · simp [hs, hkey hs]
      · simp [hs]
    have hact1 : compressAction ora sh true true engine tinifyKeySet
        strategy st [url] [some pid] [some iid] =
        (.complete
          [{ freshItem url r fileName with
               shopify := some (swapOk pid newId (some iid)) }]
          (aggregates
            [{ freshItem url r fileName with
                 shopify := some (swapOk pid newId (some iid)) }]),
          storeAfter st url r fileName,
          [ShopEvent.create pid (mkPublicUrl fileName),
           ShopEvent.delete pid iid]) := by
      simp [compressAction, hfilter, hguard, runBatch, hitem1]
    have hue : url.isEmpty = false := by
      cases hu : url with
      | nil => exact absurd hu hurl
      | cons a l => rfl
    have hrev : revertAction ora sh (storeAfter st url r fileName) true url
        (some pid) (some iid) = (.notFound, []) := by
      have hfo : findOriginalImage ora (storeAfter st url r fileName) url =
          none := by
        simp [findOriginalImage, storeAfter, horig]
      simp [revertAction, hue, hfo]
    exact ⟨_, _, _, _, hact1, rfl, hrev⟩

/-- C2 witness: the concrete URL `"good"` compressed with origin identifiers
(product 11, old image 22) from the empty store — the swap succeeds
(`replaced: true`, new image id 1), yet the subsequent revert of the same
URL answers 404 because no original was ever archived. -/
theorem compress_swap_then_revert_not_found_witness :
    ∃ item totals st1 evs,
      compressAction benignOracle okShop true true mixedEngine true
          (strChars "sharp") emptyStore [strChars "good"] [some 11]
          [some 22] = (.complete [item] totals, st1, evs) ∧
      item.shopify = some (swapOk 11 1 (some 22)) ∧
      revertAction benignOracle okShop st1 true (strChars "good") (some 11)
          (some 22) = (.notFound, []) :=
  compress_swap_then_revert_not_found.2.2 benignOracle okShop mixedEngine
    true (strChars "sharp") emptyStore (strChars "good")
    { goodResult with url := some (strChars "good") } 11 22 1
    rfl (by decide) rfl rfl (by decide) (fun _ => rfl) (fun _ h => by
      simp [emptyStore] at h) (fun _ _ => rfl) rfl
